import Mathlib

/-!
Verification of the `easy-fetch-ajax` request/response lifecycle controller.

The development shallowly embeds the two shipped versions of the script
(`easyAjax` v2.0.0 and v1.2.8) together with their helper functions.  Pure
computations (settings merge, request building, response classification)
become Lean functions; DOM and UI side effects become explicit action traces
(`UIAction` lists); synchronous JavaScript exceptions become `Except` /
`Option` error slots.  The DOM environment relevant to the code — the
csrf-token meta tag, the named inputs and the form inside the configured
container — is passed in explicitly.
-/

/-- A JavaScript value as it appears in the configuration objects: enough of
the JS data model to state properties of `Object.assign` merging. `elem`
stands for a DOM element reference (e.g. `document.body`). -/
inductive JsonVal where
  | nullV
  | bool (b : Bool)
  | str (s : String)
  | num (n : Int)
  | elem (tag : String)
  | obj (fields : List (String × JsonVal))

/-- Property lookup on a JS object represented as an ordered key/value list
(first binding wins, as JS object keys are unique). -/
def lookupKey : List (String × JsonVal) → String → Option JsonVal
  | [], _ => none
  | p :: rest, k => if p.1 = k then some p.2 else lookupKey rest k

/-- `Object.assign({}, d, o)`: every own key of `o` overwrites the key of the
same name in `d`; keys of `d` not present in `o` survive unchanged.  The copy
is shallow: values (including nested objects) are taken wholesale. -/
def objAssign (d o : List (String × JsonVal)) : List (String × JsonVal) :=
  d.filter (fun p => (lookupKey o p.1).isNone) ++ o

/-- The nested `toastrOptions` default object of `easyAjax` (both versions,
identical text). -/
def toastrDefaults : List (String × JsonVal) :=
  [("closeButton", JsonVal.bool true),
   ("debug", JsonVal.bool false),
   ("newestOnTop", JsonVal.bool true),
   ("progressBar", JsonVal.bool false),
   ("positionClass", JsonVal.str "toastr-top-center"),
   ("preventDuplicates", JsonVal.bool false),
   ("onclick", JsonVal.nullV),
   ("showDuration", JsonVal.str "300"),
   ("hideDuration", JsonVal.str "1000"),
   ("timeOut", JsonVal.str "3000"),
   ("extendedTimeOut", JsonVal.str "1000"),
   ("showEasing", JsonVal.str "linear"),
   ("hideEasing", JsonVal.str "linear"),
   ("showMethod", JsonVal.str "fadeIn"),
   ("hideMethod", JsonVal.str "fadeOut")]

/-- The `defaults` object of `easyAjax` (identical in v1.2.8 and v2.0.0). -/
def easyAjaxDefaults : List (String × JsonVal) :=
  [("type", JsonVal.str "GET"),
   ("container", JsonVal.elem "document.body"),
   ("blockUI", JsonVal.bool true),
   ("disableButton", JsonVal.bool true),
   ("buttonSelector", JsonVal.str "[type=\x27submit\x27]"),
   ("dataType", JsonVal.str "json"),
   ("showToastrMsg", JsonVal.bool true),
   ("toastrOptions", JsonVal.obj toastrDefaults),
   ("showSwalMsg", JsonVal.bool true),
   ("swalOptions", JsonVal.obj []),
   ("redirect", JsonVal.bool true),
   ("data", JsonVal.obj []),
   ("file", JsonVal.bool false),
   ("formReset", JsonVal.bool false),
   ("async", JsonVal.bool true),
   ("debug", JsonVal.bool false),
   ("timeout", JsonVal.num 5000),
   ("customErrorHandler", JsonVal.nullV),
   ("customSuccessHandler", JsonVal.nullV)]

/-- `const settings = Object.assign(\x7b\x7d, defaults, options)` — the
configuration merge performed by `easyAjax`. -/
def mergeSettings (options : List (String × JsonVal)) : List (String × JsonVal) :=
  objAssign easyAjaxDefaults options

/-- Lookup of a key inside a nested object-valued key of a settings record. -/
def nestedLookup (o : List (String × JsonVal)) (k1 k2 : String) : Option JsonVal :=
  match lookupKey o k1 with
  | some (JsonVal.obj fields) => lookupKey fields k2
  | _ => none

/-- ASCII uppercase of one character, as `String.prototype.toUpperCase`
behaves on ASCII method names. -/
def upcaseChar (c : Char) : Char :=
  if 97 ≤ c.toNat ∧ c.toNat ≤ 122 then Char.ofNat (c.toNat - 32) else c

/-- `s.toUpperCase()` restricted to the ASCII range (method strings). -/
def upcase (s : String) : String := String.mk (s.data.map upcaseChar)

/-- The `data` option as the code distinguishes it: `typeof data === "string"`
(URL-encoded payloads) versus a plain object of string fields. -/
inductive DataVal where
  | str (s : String)
  | obj (fields : List (String × String))
deriving DecidableEq

/-- The resolved settings record of one `easyAjax` invocation, restricted to
the fields the lifecycle code reads.  Callback options are tracked by
presence (`has…`); the container element is represented by the observable
features the code queries: its named inputs and whether it holds a `form`.
Field defaults mirror the `defaults` object of the source. -/
structure Settings where
  type : String := "GET"
  url : String := ""
  containerInputs : List String := []
  containerHasForm : Bool := false
  formEntries : List (String × String) := []
  disableButton : Bool := true
  buttonSelector : String := "[type=\x27submit\x27]"
  showToastrMsg : Bool := true
  showSwalMsg : Bool := true
  swalOptions : List (String × String) := []
  redirect : Bool := true
  data : DataVal := DataVal.obj []
  file : Bool := false
  formReset : Bool := false
  timeout : Nat := 5000
  headersXCsrf : Option String := none
  hasBeforeSend : Bool := false
  hasCustomErrorHandler : Bool := false
  hasErrorCallback : Bool := false
  hasCustomSuccessHandler : Bool := false
  hasSuccessCallback : Bool := false
  hasComplete : Bool := false
deriving DecidableEq

/-- A synchronous JavaScript exception. -/
inductive JsError where
  | typeError (msg : String)
  | jsErrorMsg (msg : String)
deriving DecidableEq

/-- Observable side effects of one invocation, in program order. -/
inductive UIAction where
  | toastrError (msg : String)
  | toastrSuccess (msg : String)
  | inlineError (field : String) (msg : String)
  | consoleError (msg : String)
  | consoleWarn (msg : String)
  | clearValidation
  | redirectTo (url : String)
  | formReset
  | buttonLoading (isLoading : Bool)
  | swalFire
  | invokeBeforeSend
  | invokeCustomError
  | invokeError
  | invokeCustomSuccess
  | invokeSuccess
  | invokeComplete
  | clearTimer
  | timerSet
  | fetchIssued
deriving DecidableEq

/-- The request body finally handed to `fetch`. -/
inductive Body where
  | noBody
  | formData (entries : List (String × String))
  | str (s : String)
  | jsonStr (s : String)
deriving DecidableEq

/-- The `requestOptions` record handed to `fetch`. -/
structure RequestOptions where
  method : String
  csrfHeader : String
  contentType : Option String
  body : Body
deriving DecidableEq

/-- `JSON.stringify` on a flat object of string fields. -/
def jsonStringify (o : List (String × String)) : String :=
  "\x7b" ++ String.intercalate ","
    (o.map (fun p => "\"" ++ p.1 ++ "\":\"" ++ p.2 ++ "\"")) ++ "\x7d"

/-- `Object.keys(data)` / `data[key]` pairs as `createFormData` appends them:
for an object its fields, for a string its character-index/character pairs. -/
def dataEntries : DataVal → List (String × String)
  | DataVal.obj o => o
  | DataVal.str s => s.data.enum.map (fun p => (toString p.1, String.singleton p.2))

/-- `createFormData(settings)`: throws when `container` holds no `form`;
otherwise the multipart body is the form entries plus the appended `data`
entries. -/
def createFormData (s : Settings) : Except JsError (List (String × String)) :=
  if s.containerHasForm then
    Except.ok (s.formEntries ++ dataEntries s.data)
  else
    Except.error (JsError.jsErrorMsg "Form not found in the specified container.")

/-- Lines 91–118 of v2.0.0 (83–105 of v1.2.8): read the csrf meta tag
(`null.getAttribute` throws when the tag is absent), resolve the
`X-CSRF-TOKEN` header (caller's truthy value wins), and build method,
content type and body.  `metaCsrf` is the content of the page's
`meta[name=csrf-token]` tag, `none` when the tag is missing. -/
def buildRequest (s : Settings) (metaCsrf : Option String) : Except JsError RequestOptions :=
  match metaCsrf with
  | none =>
      Except.error (JsError.typeError
        "Cannot read properties of null (reading getAttribute)")
  | some tok =>
      let csrfHeader :=
        match s.headersXCsrf with
        | some v => if v = "" then tok else v
        | none => tok
      if upcase s.type ≠ "GET" ∧ upcase s.type ≠ "HEAD" then
        if s.file then
          match createFormData s with
          | Except.error e => Except.error e
          | Except.ok fd =>
              Except.ok { method := s.type, csrfHeader := csrfHeader,
                          contentType := none, body := Body.formData fd }
        else
          match s.data with
          | DataVal.str d =>
              Except.ok { method := s.type, csrfHeader := csrfHeader,
                          contentType := some "application/x-www-form-urlencoded",
                          body := Body.str d }
          | DataVal.obj o =>
              Except.ok { method := s.type, csrfHeader := csrfHeader,
                          contentType := some "application/json",
                          body := Body.jsonStr (jsonStringify o) }
      else
        Except.ok { method := s.type, csrfHeader := csrfHeader,
                    contentType := none, body := Body.noBody }

/-- `toggleButtonLoading(selector, isLoading, settings)`: warns and does
nothing on a falsy selector, otherwise toggles the loading state of the
buttons matched inside the container. -/
def toggleButtonLoading (selector : String) (isLoading : Bool) : List UIAction :=
  if selector = "" then
    [UIAction.consoleWarn "toggleButtonLoading: Selector is not provided"]
  else
    [UIAction.buttonLoading isLoading]

/-- `defaultBeforeSend(settings)`: disables the target button when
`disableButton` is set and a selector and container are available. -/
def defaultBeforeSend (s : Settings) : List UIAction :=
  if s.disableButton ∧ s.buttonSelector ≠ "" then
    toggleButtonLoading s.buttonSelector true
  else
    []

/-- The `beforeSend` step of `easyAjax`: the caller's hook when supplied
(`settings.beforeSend = settings.beforeSend || defaultBeforeSend`),
otherwise the default. -/
def beforeSendActs (s : Settings) : List UIAction :=
  if s.hasBeforeSend then [UIAction.invokeBeforeSend] else defaultBeforeSend s

/-- The decoded JSON body of a response, restricted to the fields the
lifecycle code reads: `error` (by truthiness), `url`, `message`, `errors`. -/
structure RespJson where
  errorTruthy : Bool := false
  url : Option String := none
  message : Option String := none
  errors : Option (List (String × List String)) := none
deriving DecidableEq

/-- A raw `fetch` `Response`: status line, `content-type` header (`none`
when absent) and the body, both as text and as its JSON decoding
(`jsonBody = none` when the body is not valid JSON, so `response.json()`
rejects). -/
structure RawResponse where
  ok : Bool
  status : Nat
  contentType : Option String
  jsonBody : Option RespJson
  textBody : String
deriving DecidableEq

/-- What one invocation's transport produced: a response, or a rejection of
`fetch` itself (network failure, or the timeout's `abort`). -/
inductive TransportResult where
  | response (r : RawResponse)
  | networkError (msg : String)
deriving DecidableEq

/-- The value processed by the handlers after content-type dispatch:
decoded JSON data or raw text. -/
inductive RespData where
  | json (j : RespJson)
  | text (s : String)
deriving DecidableEq

/-- JS truthiness of `data` in `if (data && !data.error)`. -/
def dataTruthy : RespData → Bool
  | RespData.text s => s ≠ ""
  | RespData.json _ => true

/-- JS truthiness of `data.error` (a string has no `error` property). -/
def dataErrorTruthy : RespData → Bool
  | RespData.text _ => false
  | RespData.json j => j.errorTruthy

/-- `response.url` as the success handler reads it. -/
def respUrl : RespData → Option String
  | RespData.json j => j.url
  | RespData.text _ => none

/-- `response.message` as the handlers read it. -/
def respMessage : RespData → Option String
  | RespData.json j => j.message
  | RespData.text _ => none

/-- JS truthiness of an optional string property. -/
def strTruthy : Option String → Bool
  | none => false
  | some s => s ≠ ""

/-- `a || b` on an optional string property. -/
def strOrDefault (o : Option String) (d : String) : String :=
  match o with
  | some m => if m = "" then d else m
  | none => d

/-- `messages[0]` (JS yields `undefined`, rendered as text, on an empty
list). -/
def headOrUndefined (l : List String) : String := l.headD "undefined"

/-- The classification errors produced by `validateResponse` (identical in
both versions): a non-ok response whose body decodes becomes an `Error`
whose message embeds the status and which carries the decoded body as
`responseJson`; when the body does not decode, the rejection reaching the
pipeline's catch is the JSON parse error itself. -/
inductive FetchErrV1 where
  | httpError (message : String) (responseJson : RespJson)
  | parseError (message : String)
deriving DecidableEq

/-- `validateResponse(response)` — lines 177–186 of v1.2.8 (205–214 of
v2.0.0, identical text). -/
def validateResponse (r : RawResponse) : Except FetchErrV1 RawResponse :=
  if r.ok then
    Except.ok r
  else
    match r.jsonBody with
    | some j =>
        Except.error (FetchErrV1.httpError ("Network error: " ++ toString r.status) j)
    | none =>
        Except.error (FetchErrV1.parseError "SyntaxError: Unexpected end of JSON input")

/-- substring test (`String.prototype.includes`) for a non-empty pattern. -/
def strContains (s pat : String) : Bool := (s.splitOn pat).length ≠ 1

/-- `processContentType(response)` (identical in both versions): dispatch on
the `content-type` header; a missing header makes `contentType.includes`
throw; an undecodable JSON body makes `response.json()` reject; any other
content type throws `Unsupported content type`. -/
def processContentType (r : RawResponse) : Except JsError RespData :=
  match r.contentType with
  | none =>
      Except.error (JsError.typeError
        "Cannot read properties of null (reading includes)")
  | some ct =>
      if strContains ct "application/json" then
        match r.jsonBody with
        | some j => Except.ok (RespData.json j)
        | none => Except.error (JsError.jsErrorMsg "SyntaxError: Unexpected end of JSON input")
      else if strContains ct "text/html" then
        Except.ok (RespData.text r.textBody)
      else
        Except.error (JsError.jsErrorMsg ("Unsupported content type: " ++ ct))

/-- `handleSuccess(response, settings)` (identical in both versions): clear
validation annotations, navigate when `redirect` is set and the body carries
a truthy `url`, reset the first form inside the container when `formReset`
is set (`querySelector(\x27form\x27)` is `null` without one, so `.reset()`
throws), and show a success toastr when `showToastrMsg` is set and the body
carries a truthy `message`.  Returns the emitted actions and the exception
aborting the handler, if any. -/
def handleSuccess (d : RespData) (s : Settings) : List UIAction × Option JsError :=
  let a1 := [UIAction.clearValidation]
  let a2 := if s.redirect ∧ strTruthy (respUrl d) then
              [UIAction.redirectTo ((respUrl d).getD "")]
            else []
  if s.formReset ∧ ¬ s.containerHasForm then
    (a1 ++ a2, some (JsError.typeError "Cannot read properties of null (reading reset)"))
  else
    let a3 := if s.formReset then [UIAction.formReset] else []
    let a4 := if s.showToastrMsg ∧ strTruthy (respMessage d) then
                [UIAction.toastrSuccess ((respMessage d).getD "")]
              else []
    (a1 ++ a2 ++ a3 ++ a4, none)

/-- `processResponse(data, settings)` (identical in both versions): run
`handleSuccess` when `data` is truthy and carries no truthy `error` field,
then hand the body to `customSuccessHandler` if provided, else to the plain
`success` callback if provided.  A throw inside `handleSuccess` aborts the
function before the callback step. -/
def processResponse (d : RespData) (s : Settings) : List UIAction × Option JsError :=
  let step1 := if dataTruthy d ∧ ¬ dataErrorTruthy d then handleSuccess d s else ([], none)
  match step1 with
  | (ui, some e) => (ui, some e)
  | (ui, none) =>
      (ui ++ (if s.hasCustomSuccessHandler then [UIAction.invokeCustomSuccess]
              else if s.hasSuccessCallback then [UIAction.invokeSuccess]
              else []), none)

/-- The error values reaching v2.0.0's `handleError` through the pipeline's
catch: the object `\x7b response \x7d` thrown on a non-ok status (carrying
the status and the body available to `response.json()`), or a plain
JavaScript error (network failure, abort, or a throw in a later stage). -/
inductive FetchError where
  | httpResponse (status : Nat) (jsonBody : Option RespJson)
  | plainError (e : JsError)
deriving DecidableEq

/-- The rendering step of the 422 branch: locate the named input inside the
container (`querySelector` by name); when present, `displayValidationError`
renders one inline message under it using `messages[0]`; absent inputs are
skipped. -/
def renderFieldError (s : Settings) (fe : String × List String) : Option UIAction :=
  if s.containerInputs.contains fe.1 then
    some (UIAction.inlineError fe.1 (headOrUndefined fe.2))
  else
    none

/-- `handleError(error, settings)` of v2.0.0 (lines 257–290 of the source):
a 422 response decodes its body and renders a summary toastr
(`message || "Validation errors occurred."`) followed by one inline error
per matching field; a body that fails to decode only logs; other statuses
and non-HTTP errors show a generic toastr.  No caller callback is consulted
anywhere in this function. -/
def handleError (e : FetchError) (s : Settings) : List UIAction :=
  match e with
  | FetchError.httpResponse status jsonBody =>
      if status = 422 then
        match jsonBody with
        | some j =>
            UIAction.toastrError (strOrDefault j.message "Validation errors occurred.") ::
            (match j.errors with
             | some errs => errs.filterMap (renderFieldError s)
             | none => [])
        | none => [UIAction.consoleError "Error parsing JSON response:"]
      else
        [UIAction.toastrError "An unexpected error occurred."]
  | FetchError.plainError _ =>
      [UIAction.toastrError
        "A network error occurred. Please check your connection and try again."]

/-- The error values reaching v1.2.8's `handleError`: the `Error` objects
produced by `validateResponse`, or plain errors from `fetch` itself and the
later stages.  None of them owns a `status` property. -/
inductive ErrV1 where
  | fetchErr (fe : FetchErrV1)
  | jsErr (e : JsError)
deriving DecidableEq

/-- `error.status` of a v1 error value: `Error` objects carry no `status`
property, so the read yields `undefined` for every error the pipeline can
produce. -/
def errV1Status : ErrV1 → Option Nat := fun _ => none

/-- `handleError(error, settings)` of v1.2.8 (lines 229–259 of the source):
log the error; branch on `error.status === 422` (never satisfied by the
pipeline's error values, see `errV1Status`), else show the generic toastr;
finally invoke `customErrorHandler(error, settings)` if provided, else the
plain `error(error)` callback if provided. -/
def handleErrorV1 (e : ErrV1) (s : Settings) : List UIAction :=
  UIAction.consoleError "Error in fetch operation:" ::
  ((if errV1Status e = some 422 then
      []
    else
      [UIAction.toastrError "An error occurred. Please try again."]) ++
   (if s.hasCustomErrorHandler then [UIAction.invokeCustomError]
    else if s.hasErrorCallback then [UIAction.invokeError]
    else []))

/-- `handleFailure(response, settings, messageType)` (both versions; lines
352–364 of v2.0.0): shows an error toastr for a truthy `message` when
`showToastrMsg` is set, and calls `window.Swal.fire` with the merged
`swalOptions` when `showSwalMsg` is set and `window.Swal` exists.  This is
the only function in the source that reads `showSwalMsg`/`swalOptions`. -/
def handleFailure (respMessage : Option String) (s : Settings) (windowSwal : Bool) :
    List UIAction :=
  (if s.showToastrMsg ∧ strTruthy respMessage then
     [UIAction.toastrError (respMessage.getD "")]
   else []) ++
  (if s.showSwalMsg ∧ windowSwal then [UIAction.swalFire] else [])

/-- The promise chain of v2.0.0 after `fetch` settles: a non-ok response
throws `\x7b response \x7d` straight to the catch; an ok response flows
through `validateResponse` (identity on ok responses) and
`processContentType` into `processResponse`; every rejection along the way
lands in `handleError`. -/
def runPipelineV2 (s : Settings) (t : TransportResult) : List UIAction :=
  match t with
  | TransportResult.networkError msg =>
      handleError (FetchError.plainError (JsError.typeError msg)) s
  | TransportResult.response r =>
      if r.ok then
        match validateResponse r with
        | Except.error fe =>
            handleError (FetchError.plainError
              (JsError.jsErrorMsg (match fe with
                | FetchErrV1.httpError m _ => m
                | FetchErrV1.parseError m => m))) s
        | Except.ok r2 =>
            match processContentType r2 with
            | Except.error e => handleError (FetchError.plainError e) s
            | Except.ok d =>
                let step := processResponse d s
                step.1 ++ (match step.2 with
                  | some e => handleError (FetchError.plainError e) s
                  | none => [])
      else
        handleError (FetchError.httpResponse r.status r.jsonBody) s

/-- The promise chain of v1.2.8 after `fetch` settles: every response flows
through `validateResponse` (which classifies non-ok responses) and then
`processContentType` into `processResponse`; every rejection lands in
`handleErrorV1`. -/
def runPipelineV1 (s : Settings) (t : TransportResult) : List UIAction :=
  match t with
  | TransportResult.networkError msg =>
      handleErrorV1 (ErrV1.jsErr (JsError.typeError msg)) s
  | TransportResult.response r =>
      match validateResponse r with
      | Except.error fe => handleErrorV1 (ErrV1.fetchErr fe) s
      | Except.ok r2 =>
          match processContentType r2 with
          | Except.error e => handleErrorV1 (ErrV1.jsErr e) s
          | Except.ok d =>
              let step := processResponse d s
              step.1 ++ (match step.2 with
                | some e => handleErrorV1 (ErrV1.jsErr e) s
                | none => [])

/-- The `.finally` block (identical in both versions): clear the timeout
timer, restore the button when `disableButton` was set, then invoke the
`complete()` callback if provided. -/
def finallyActions (s : Settings) : List UIAction :=
  UIAction.clearTimer ::
  ((if s.disableButton then toggleButtonLoading s.buttonSelector false else []) ++
   (if s.hasComplete then [UIAction.invokeComplete] else []))

/-- One full `easyAjax(options)` invocation (v2.0.0 body): clear stale
validation annotations, build the request (reading the csrf meta tag; a
synchronous throw here aborts the invocation before `beforeSend`, the
timer and `fetch`), run `beforeSend`, arm the timer, issue the request and
process the transport's outcome `t`, then run the `.finally` block.
Returns the emitted actions and the synchronous exception, if any. -/
def easyAjax (s : Settings) (metaCsrf : Option String) (t : TransportResult) :
    List UIAction × Option JsError :=
  match buildRequest s metaCsrf with
  | Except.error e => ([UIAction.clearValidation], some e)
  | Except.ok _ =>
      (UIAction.clearValidation ::
        (beforeSendActs s ++ [UIAction.timerSet, UIAction.fetchIssued] ++
         runPipelineV2 s t ++ finallyActions s), none)

/-- The inline validation messages a trace renders for a given field. -/
def inlineMsgs (tr : List UIAction) (f : String) : List String :=
  tr.filterMap (fun a =>
    match a with
    | UIAction.inlineError g m => if g = f then some m else none
    | _ => none)

/-- The summary (toastr error) notifications a trace shows. -/
def summaryMsgs (tr : List UIAction) : List String :=
  tr.filterMap (fun a =>
    match a with
    | UIAction.toastrError m => some m
    | _ => none)


/-- The options object of the C1 counterexample: the caller supplies a
nested `toastrOptions` object mentioning only `closeButton`. -/
def c1Opts : List (String × JsonVal) :=
  [("toastrOptions", JsonVal.obj [("closeButton", JsonVal.bool false)])]

/-- The container and error body of the C3 witness: inputs named `email`
and `name`; errors for `email`, `name` and a field `ghost` with no matching
input. -/
def c3Settings : Settings := { containerInputs := ["email", "name"] }

/-- The concrete `errors` object of the C3 witness. -/
def c3Errors : List (String × List String) :=
  [("email", ["Email is required", "second"]), ("name", ["Name is required"]),
   ("ghost", ["Hidden"])]

/-- The request body of a built request, `none` when building threw. -/
def bodyOf (e : Except JsError RequestOptions) : Option Body :=
  match e with
  | Except.ok r => some r.body
  | Except.error _ => none

/-- The content type of a built request, `none` when building threw. -/
def ctypeOf (e : Except JsError RequestOptions) : Option (Option String) :=
  match e with
  | Except.ok r => some r.contentType
  | Except.error _ => none

/-- The `X-CSRF-TOKEN` header of a built request, `none` when building
threw. -/
def csrfHeaderOf (e : Except JsError RequestOptions) : Option String :=
  match e with
  | Except.ok r => some r.csrfHeader
  | Except.error _ => none

/-- Whether `validateResponse` wrapped the outcome as the HTTP-failure
`Error` object (one carrying a `responseJson` body). -/
def isHttpError (e : Except FetchErrV1 RawResponse) : Bool :=
  match e with
  | Except.error (FetchErrV1.httpError _ _) => true
  | _ => false

/-- The action shapes the post-fetch pipeline (v2.0.0 handlers) can emit. -/
def pipeAct : UIAction → Bool
  | UIAction.toastrError _ => true
  | UIAction.toastrSuccess _ => true
  | UIAction.inlineError _ _ => true
  | UIAction.consoleError _ => true
  | UIAction.clearValidation => true
  | UIAction.redirectTo _ => true
  | UIAction.formReset => true
  | UIAction.invokeCustomSuccess => true
  | UIAction.invokeSuccess => true
  | _ => false

/-- The action shapes that may occur before the `.finally` block runs. -/
def preAct : UIAction → Bool
  | UIAction.invokeBeforeSend => true
  | UIAction.consoleWarn _ => true
  | UIAction.buttonLoading b => b
  | UIAction.timerSet => true
  | UIAction.fetchIssued => true
  | a => pipeAct a

/-- The settings of the C2 failing input: a caller that supplied a plain
`error` callback (and no custom handler). -/
def c2Settings : Settings := { hasErrorCallback := true }

/-- The settings of the C2 failing input, variant with a
`customErrorHandler` supplied. -/
def c2SettingsCustom : Settings := { hasCustomErrorHandler := true }

/-- The settings of the C4 counterexample: a POST with `file: true` and a
string `data` value. -/
def c4Settings : Settings :=
  { type := "POST", file := true, containerHasForm := true,
    formEntries := [("f", "v")], data := DataVal.str "ab" }

/-- The settings of the C9 counterexample: `file: true` with the default
GET method and no form in the container. -/
def c9Settings : Settings := { file := true, containerHasForm := false }

/-- The raw response of the C7 counterexample: a 500 whose body is not
valid JSON. -/
def c7Response : RawResponse :=
  { ok := false, status := 500, contentType := some "text/html",
    jsonBody := none, textBody := "Server Error" }

theorem lookupKey_append (l1 l2 : List (String × JsonVal)) (k : String) :
    lookupKey (l1 ++ l2) k =
      match lookupKey l1 k with
      | some v => some v
      | none => lookupKey l2 k := by
  induction l1 with
  | nil => simp [lookupKey]
  | cons p l1 ih =>
      by_cases hk : p.1 = k
      · simp [lookupKey, hk]
      · simp [lookupKey, hk, ih]

theorem lookupKey_filter_of_some (d o : List (String × JsonVal)) (k : String) (v : JsonVal)
    (h : lookupKey o k = some v) :
    lookupKey (d.filter (fun p => (lookupKey o p.1).isNone)) k = none := by
  induction d with
  | nil => simp [lookupKey]
  | cons p d ih =>
      by_cases hk : p.1 = k
      · have hp : lookupKey o p.1 = some v := by rwa [hk]
        simp [List.filter_cons, hp, ih]
      · by_cases hn : (lookupKey o p.1).isNone
        · simp [List.filter_cons, hn, lookupKey, hk, ih]
        · simp [List.filter_cons, hn, ih]

theorem lookupKey_filter_of_none (d o : List (String × JsonVal)) (k : String)
    (h : lookupKey o k = none) :
    lookupKey (d.filter (fun p => (lookupKey o p.1).isNone)) k = lookupKey d k := by
  induction d with
  | nil => simp
  | cons p d ih =>
      by_cases hk : p.1 = k
      · have hp : lookupKey o p.1 = none := by rwa [hk]
        simp [List.filter_cons, hp, lookupKey, hk, h]
      · by_cases hn : (lookupKey o p.1).isNone
        · simp [List.filter_cons, hn, lookupKey, hk, ih]
        · simp [List.filter_cons, hn, lookupKey, hk, ih]

theorem lookupKey_objAssign_some (d o : List (String × JsonVal)) (k : String) (v : JsonVal)
    (h : lookupKey o k = some v) :
    lookupKey (objAssign d o) k = some v := by
  rw [objAssign, lookupKey_append, lookupKey_filter_of_some d o k v h, h]

theorem lookupKey_objAssign_none (d o : List (String × JsonVal)) (k : String)
    (h : lookupKey o k = none) :
    lookupKey (objAssign d o) k = lookupKey d k := by
  rw [objAssign, lookupKey_append, lookupKey_filter_of_none d o k h]
  cases hd : lookupKey d k <;> simp [hd, h]


theorem inlineMsgs_cons_inline (g m : String) (tr : List UIAction) (f : String) :
    inlineMsgs (UIAction.inlineError g m :: tr) f =
      if g = f then m :: inlineMsgs tr f else inlineMsgs tr f := by
  by_cases h : g = f <;> simp [inlineMsgs, List.filterMap_cons, h]

theorem inlineMsgs_cons_toastr (m : String) (tr : List UIAction) (f : String) :
    inlineMsgs (UIAction.toastrError m :: tr) f = inlineMsgs tr f := by
  simp [inlineMsgs, List.filterMap_cons]

theorem summaryMsgs_renderFields (s : Settings) (errs : List (String × List String)) :
    summaryMsgs (errs.filterMap (renderFieldError s)) = [] := by
  rw [summaryMsgs, List.filterMap_eq_nil_iff]
  intro a ha
  obtain ⟨fe, _, hfe⟩ := List.mem_filterMap.mp ha
  unfold renderFieldError at hfe
  split at hfe
  · cases hfe
    rfl
  · cases hfe

theorem inlineMsgs_renderFields_notMem (s : Settings) (errs : List (String × List String))
    (f : String) (h : f ∉ errs.map Prod.fst) :
    inlineMsgs (errs.filterMap (renderFieldError s)) f = [] := by
  induction errs with
  | nil => rfl
  | cons fe rest ih =>
      have hf : fe.1 ≠ f := by
        intro he
        exact h (by simp [he.symm])
      have hrest : f ∉ rest.map Prod.fst := by
        intro hm
        exact h (by simp [hm])
      by_cases hc : fe.1 ∈ s.containerInputs
      · simp [List.filterMap_cons, renderFieldError, hc, inlineMsgs_cons_inline, hf, ih hrest]
      · simp [List.filterMap_cons, renderFieldError, hc, ih hrest]

theorem inlineMsgs_renderFields_mem (s : Settings) (errs : List (String × List String))
    (f : String) (msgs : List String)
    (hnd : (errs.map Prod.fst).Nodup) (hmem : (f, msgs) ∈ errs) :
    inlineMsgs (errs.filterMap (renderFieldError s)) f =
      if f ∈ s.containerInputs then [headOrUndefined msgs] else [] := by
  induction errs with
  | nil => cases hmem
  | cons fe rest ih =>
      have hnd' : (rest.map Prod.fst).Nodup := (List.nodup_cons.mp hnd).2
      rcases List.mem_cons.mp hmem with heq | hrest
      · subst heq
        have hnotin : f ∉ rest.map Prod.fst := (List.nodup_cons.mp hnd).1
        by_cases hc : f ∈ s.containerInputs
        · simp [List.filterMap_cons, renderFieldError, hc, inlineMsgs_cons_inline,
                inlineMsgs_renderFields_notMem s rest f hnotin]
        · simp [List.filterMap_cons, renderFieldError, hc,
                inlineMsgs_renderFields_notMem s rest f hnotin]
      · have hne : fe.1 ≠ f := by
          intro he
          exact (List.nodup_cons.mp hnd).1 (he ▸ List.mem_map_of_mem Prod.fst hrest)
        by_cases hc : fe.1 ∈ s.containerInputs
        · simp [List.filterMap_cons, renderFieldError, hc, inlineMsgs_cons_inline, hne,
                ih hnd' hrest]
        · simp [List.filterMap_cons, renderFieldError, hc, ih hnd' hrest]

/-- C1 (counterexample). The claim asserts that a caller-supplied nested
`toastrOptions` object keeps the default values for nested keys it does not
mention.  It is false: after the merge performed by `easyAjax`
(`Object.assign` is shallow), the caller's object
`\x7b closeButton: false \x7d` replaces the default `toastrOptions`
wholesale, so the nested default `timeOut: "3000"` is gone (`nestedLookup`
yields `none`, while the defaults record carries `"3000"`). -/
theorem c1_counterexample :
    lookupKey (mergeSettings c1Opts) "toastrOptions" =
      some (JsonVal.obj [("closeButton", JsonVal.bool false)]) ∧
    nestedLookup (mergeSettings c1Opts) "toastrOptions" "timeOut" = none ∧
    nestedLookup easyAjaxDefaults "toastrOptions" "timeOut" = some (JsonVal.str "3000") :=
  ⟨rfl, rfl, rfl⟩

/-- C1 (amended). For the configuration merge
`Object.assign(\x7b\x7d, defaults, options)` performed by `easyAjax`: every
recognized key omitted by the caller equals the documented default, and
every key supplied by the caller overrides the default exactly — the
supplied value, including a nested option object such as `toastrOptions`,
replaces the default value wholesale (nested keys the caller does not
mention are absent from the merged nested object, not filled from the
default). -/
theorem c1_merge_amended (opts : List (String × JsonVal)) (k : String) (v : JsonVal) :
    (lookupKey opts k = none →
       lookupKey (mergeSettings opts) k = lookupKey easyAjaxDefaults k) ∧
    (lookupKey opts k = some v → lookupKey (mergeSettings opts) k = some v) :=
  ⟨fun h => lookupKey_objAssign_none easyAjaxDefaults opts k h,
   fun h => lookupKey_objAssign_some easyAjaxDefaults opts k v h⟩

/-- Witness for C1: at the concrete options of the counterexample, the
omitted key `timeout` gets its default `5000` and the supplied key
`toastrOptions` gets exactly the caller's object. -/
theorem c1_merge_amended_witness :
    lookupKey (mergeSettings c1Opts) "timeout" = some (JsonVal.num 5000) ∧
    lookupKey (mergeSettings c1Opts) "toastrOptions" =
      some (JsonVal.obj [("closeButton", JsonVal.bool false)]) := by
  constructor
  · exact ((c1_merge_amended c1Opts "timeout" JsonVal.nullV).1 rfl).trans rfl
  · exact (c1_merge_amended c1Opts "toastrOptions"
      (JsonVal.obj [("closeButton", JsonVal.bool false)])).2 rfl

/-- C3 (confirmed). For a 422 response whose decoded JSON body carries a
truthy `message` and an `errors` object mapping field names (unique, as JS
object keys) to non-empty ordered message lists, v2.0.0's `handleError`
renders exactly one inline message per field that has a matching named input
inside the container — the first message of that field's list — shows
exactly one summary notification using the body's `message`, and renders
nothing for fields with no matching input (they are silently skipped). -/
theorem c3_422_rendering (s : Settings) (m : String) (errs : List (String × List String))
    (hm : m ≠ "") (hnd : (errs.map Prod.fst).Nodup)
    (hne : ∀ p ∈ errs, p.2 ≠ ([] : List String)) :
    summaryMsgs (handleError (FetchError.httpResponse 422
        (some { message := some m, errors := some errs })) s) = [m] ∧
    (∀ f msgs, (f, msgs) ∈ errs →
       inlineMsgs (handleError (FetchError.httpResponse 422
           (some { message := some m, errors := some errs })) s) f =
         if f ∈ s.containerInputs then msgs.take 1 else []) ∧
    (∀ f, f ∉ errs.map Prod.fst →
       inlineMsgs (handleError (FetchError.httpResponse 422
           (some { message := some m, errors := some errs })) s) f = []) := by
  have htr : handleError (FetchError.httpResponse 422
      (some { message := some m, errors := some errs })) s =
      UIAction.toastrError m :: errs.filterMap (renderFieldError s) := by
    simp [handleError, strOrDefault, hm]
  refine ⟨?_, ?_, ?_⟩
  · rw [htr]
    simpa [summaryMsgs, List.filterMap_cons] using summaryMsgs_renderFields s errs
  · intro f msgs hmem
    rw [htr, inlineMsgs_cons_toastr, inlineMsgs_renderFields_mem s errs f msgs hnd hmem]
    cases msgs with
    | nil => exact absurd rfl (hne (f, []) hmem)
    | cons a l => simp [headOrUndefined]
  · intro f hf
    rw [htr, inlineMsgs_cons_toastr, inlineMsgs_renderFields_notMem s errs f hf]

/-- Witness for C3 at the concrete 422 body of the spec's example (plus an
extra field without a matching input): two inline messages, first of each
list, one summary notification, and nothing for the unmatched field. -/
theorem c3_422_rendering_witness :
    summaryMsgs (handleError (FetchError.httpResponse 422
        (some { message := some "The given data was invalid.",
                errors := some c3Errors })) c3Settings) =
      ["The given data was invalid."] ∧
    inlineMsgs (handleError (FetchError.httpResponse 422
        (some { message := some "The given data was invalid.",
                errors := some c3Errors })) c3Settings) "email" =
      ["Email is required"] ∧
    inlineMsgs (handleError (FetchError.httpResponse 422
        (some { message := some "The given data was invalid.",
                errors := some c3Errors })) c3Settings) "ghost" = [] ∧
    inlineMsgs (handleError (FetchError.httpResponse 422
        (some { message := some "The given data was invalid.",
                errors := some c3Errors })) c3Settings) "address" = [] := by
  obtain ⟨h1, h2, h3⟩ := c3_422_rendering c3Settings "The given data was invalid." c3Errors
    (by decide) (by decide) (by decide)
  refine ⟨h1, ?_, ?_, ?_⟩
  · have := h2 "email" ["Email is required", "second"] (by decide)
    simpa [c3Settings] using this
  · have := h2 "ghost" ["Hidden"] (by decide)
    simpa [c3Settings] using this
  · exact h3 "address" (by decide)

/-- C2 (code bug, v2.0.0). At a transport failure with a caller-supplied
`error` callback (and, in the variant, a caller-supplied
`customErrorHandler`), the full v2.0.0 invocation trace contains no
invocation of either failure callback — v2.0.0's `handleError` renders the
notification and returns without consulting them — while v1.2.8's
`handleError` at the same error does invoke the caller's callback, as the
claim (and the repository's README examples) state. -/
theorem c2_v2_skips_failure_callbacks :
    UIAction.invokeError ∉
      (easyAjax c2Settings (some "token") (TransportResult.networkError "Failed to fetch")).1 ∧
    UIAction.invokeCustomError ∉
      (easyAjax c2Settings (some "token") (TransportResult.networkError "Failed to fetch")).1 ∧
    UIAction.invokeCustomError ∉
      (easyAjax c2SettingsCustom (some "token") (TransportResult.networkError "Failed to fetch")).1 ∧
    UIAction.invokeError ∈
      handleErrorV1 (ErrV1.jsErr (JsError.typeError "Failed to fetch")) c2Settings ∧
    UIAction.invokeCustomError ∈
      handleErrorV1 (ErrV1.jsErr (JsError.typeError "Failed to fetch")) c2SettingsCustom := by
  decide

/-- C4 (counterexample). The claim asserts that for every non-GET/HEAD
method, a string `data` value is sent verbatim with the URL-encoded content
type.  It is false when `file: true`: at a POST with `data := "ab"` and
`file: true`, the issued body is multipart form data (the form's entries
plus `Object.keys`-indexed characters of the string), not the raw string,
and no URL-encoded content type is set. -/
theorem c4_counterexample :
    bodyOf (buildRequest c4Settings (some "tok")) =
      some (Body.formData [("f", "v"), ("0", "a"), ("1", "b")]) ∧
    bodyOf (buildRequest c4Settings (some "tok")) ≠ some (Body.str "ab") ∧
    ctypeOf (buildRequest c4Settings (some "tok")) ≠
      some (some "application/x-www-form-urlencoded") := by
  decide

/-- C4 (amended). For every invocation whose method compares (after
upper-casing) equal to GET or HEAD, the issued request carries no body
regardless of the supplied `data`.  For every other method: when `file` is
not set, a string `data` is sent verbatim with the URL-encoded content type
and a non-string `data` is sent JSON-serialized with the JSON content type;
when `file` is set (and the container holds a form), the body is multipart
form data and no content type is set by hand. -/
theorem c4_body_amended (s : Settings) (tok : String) (d : String)
    (o : List (String × String)) :
    ((upcase s.type = "GET" ∨ upcase s.type = "HEAD") →
       bodyOf (buildRequest s (some tok)) = some Body.noBody) ∧
    (upcase s.type ≠ "GET" → upcase s.type ≠ "HEAD" → s.file = false →
       s.data = DataVal.str d →
       bodyOf (buildRequest s (some tok)) = some (Body.str d) ∧
       ctypeOf (buildRequest s (some tok)) =
         some (some "application/x-www-form-urlencoded")) ∧
    (upcase s.type ≠ "GET" → upcase s.type ≠ "HEAD" → s.file = false →
       s.data = DataVal.obj o →
       bodyOf (buildRequest s (some tok)) = some (Body.jsonStr (jsonStringify o)) ∧
       ctypeOf (buildRequest s (some tok)) = some (some "application/json")) ∧
    (upcase s.type ≠ "GET" → upcase s.type ≠ "HEAD" → s.file = true →
       s.containerHasForm = true →
       bodyOf (buildRequest s (some tok)) =
         some (Body.formData (s.formEntries ++ dataEntries s.data)) ∧
       ctypeOf (buildRequest s (some tok)) = some none) := by
  refine ⟨?_, ?_, ?_, ?_⟩
  · rintro (h | h) <;> simp [buildRequest, bodyOf, h]
  · intro h1 h2 hf hd
    simp [buildRequest, bodyOf, ctypeOf, h1, h2, hf, hd]
  · intro h1 h2 hf hd
    simp [buildRequest, bodyOf, ctypeOf, h1, h2, hf, hd]
  · intro h1 h2 hf hform
    simp [buildRequest, createFormData, bodyOf, ctypeOf, h1, h2, hf, hform]

/-- Witness for C4 (amended) at concrete inputs: a lowercase `get` with
string data carries no body; a POST with string data is URL-encoded; a POST
with object data is JSON; a POST with `file: true` is form data. -/
theorem c4_body_amended_witness :
    bodyOf (buildRequest { type := "get", data := DataVal.str "x=1" } (some "t")) =
      some Body.noBody ∧
    bodyOf (buildRequest { type := "POST", data := DataVal.str "x=1" } (some "t")) =
      some (Body.str "x=1") ∧
    bodyOf (buildRequest { type := "POST", data := DataVal.obj [("a", "1")] } (some "t")) =
      some (Body.jsonStr (jsonStringify [("a", "1")])) ∧
    bodyOf (buildRequest c4Settings (some "t")) =
      some (Body.formData [("f", "v"), ("0", "a"), ("1", "b")]) := by
  refine ⟨?_, ?_, ?_, ?_⟩
  · exact (c4_body_amended { type := "get", data := DataVal.str "x=1" } "t" "x=1" []).1
      (Or.inl (by decide))
  · exact ((c4_body_amended { type := "POST", data := DataVal.str "x=1" } "t" "x=1" []).2.1
      (by decide) (by decide) rfl rfl).1
  · exact ((c4_body_amended { type := "POST", data := DataVal.obj [("a", "1")] } "t" ""
      [("a", "1")]).2.2.1 (by decide) (by decide) rfl rfl).1
  · exact (((c4_body_amended c4Settings "t" "" []).2.2.2 (by decide) (by decide) rfl rfl).1).trans
      (by decide)

/-- C5 (counterexample). The claim asserts that a GET request without the
csrf-token meta tag proceeds to the transport.  It is false: at the default
settings (method GET) with no meta tag, `easyAjax` throws the
`null.getAttribute` TypeError while building the request and `fetch` is
never issued. -/
theorem c5_counterexample :
    (easyAjax ({} : Settings) none (TransportResult.networkError "net")).2 =
      some (JsError.typeError "Cannot read properties of null (reading getAttribute)") ∧
    UIAction.fetchIssued ∉
      (easyAjax ({} : Settings) none (TransportResult.networkError "net")).1 := by
  decide

/-- C5 (amended). Absence of the csrf-token meta tag makes `easyAjax` raise
immediately for every configuration — GET included, and even when the
caller supplied an explicit `X-CSRF-TOKEN` header — and no request is
issued.  When the meta tag is present and the caller supplies a truthy
explicit `X-CSRF-TOKEN` header, the built request (stated here for non-file
requests, whose building cannot fail) carries the caller's value instead of
the meta tag's; without a caller header it carries the meta tag's value. -/
theorem c5_csrf_amended (s : Settings) (t : TransportResult) (tok v : String) :
    ((easyAjax s none t).2 =
       some (JsError.typeError "Cannot read properties of null (reading getAttribute)")) ∧
    (UIAction.fetchIssued ∉ (easyAjax s none t).1) ∧
    (v ≠ "" → s.file = false →
       csrfHeaderOf (buildRequest { s with headersXCsrf := some v } (some tok)) = some v) ∧
    (s.file = false →
       csrfHeaderOf (buildRequest { s with headersXCsrf := none } (some tok)) = some tok) := by
  refine ⟨rfl, ?_, ?_, ?_⟩
  · show UIAction.fetchIssued ∉ [UIAction.clearValidation]
    decide
  · intro hv hf
    cases hd : s.data <;>
      by_cases hm : (¬ upcase s.type = "GET" ∧ ¬ upcase s.type = "HEAD") <;>
        simp [buildRequest, csrfHeaderOf, hv, hf, hd, hm]
  · intro hf
    cases hd : s.data <;>
      by_cases hm : (¬ upcase s.type = "GET" ∧ ¬ upcase s.type = "HEAD") <;>
        simp [buildRequest, csrfHeaderOf, hf, hd, hm]

/-- Witness for C5 (amended) at concrete inputs: meta tag absent on a GET →
raise and no fetch; meta tag present with caller header `"mine"` → the
caller's value is used; without a caller header → the meta value is
used. -/
theorem c5_csrf_amended_witness :
    (easyAjax ({} : Settings) none (TransportResult.networkError "net")).2 =
      some (JsError.typeError "Cannot read properties of null (reading getAttribute)") ∧
    csrfHeaderOf (buildRequest { ({} : Settings) with headersXCsrf := some "mine" } (some "meta")) = some "mine" ∧
    csrfHeaderOf (buildRequest { ({} : Settings) with headersXCsrf := none } (some "meta")) = some "meta" := by
  obtain ⟨h1, _, h3, h4⟩ :=
    c5_csrf_amended {} (TransportResult.networkError "net") "meta" "mine"
  exact ⟨h1, h3 (by decide) rfl, h4 rfl⟩

/-- C6 (confirmed). For every decoded 2xx JSON body with a truthy `error`
field, `processResponse` skips `handleSuccess` entirely — no validation
clearing, no redirect, no form reset, no success notification — yet still
invokes the success callback: the trace is exactly the invocation of
`customSuccessHandler` if provided, else of `success` if provided, and no
exception occurs. -/
theorem c6_error_field_skips_ui (s : Settings) (j : RespJson)
    (hj : j.errorTruthy = true) :
    processResponse (RespData.json j) s =
      ((if s.hasCustomSuccessHandler then [UIAction.invokeCustomSuccess]
        else if s.hasSuccessCallback then [UIAction.invokeSuccess]
        else []), none) := by
  simp [processResponse, dataTruthy, dataErrorTruthy, hj]

/-- Witness for C6 at a concrete body with `error: true` and a `message`,
with a plain `success` callback and, in the variant, a custom handler. -/
theorem c6_error_field_skips_ui_witness :
    processResponse (RespData.json { errorTruthy := true, message := some "Saved" })
      { hasSuccessCallback := true } = ([UIAction.invokeSuccess], none) ∧
    processResponse (RespData.json { errorTruthy := true, message := some "Saved" })
      { hasCustomSuccessHandler := true } = ([UIAction.invokeCustomSuccess], none) := by
  constructor
  · exact (c6_error_field_skips_ui { hasSuccessCallback := true }
      { errorTruthy := true, message := some "Saved" } rfl).trans (by decide)
  · exact (c6_error_field_skips_ui { hasCustomSuccessHandler := true }
      { errorTruthy := true, message := some "Saved" } rfl).trans (by decide)

/-- C7 (counterexample). The claim asserts that when decoding the body of a
non-2xx response fails, the failure carries an empty error body.  It is
false: at a 500 whose body is not valid JSON, `validateResponse` rejects
with the JSON parse error itself — the outcome is not the HTTP-failure
wrapper at all, and carries neither a status property nor a body. -/
theorem c7_counterexample :
    validateResponse c7Response =
      Except.error (FetchErrV1.parseError "SyntaxError: Unexpected end of JSON input") ∧
    isHttpError (validateResponse c7Response) = false :=
  ⟨rfl, rfl⟩

/-- C7 (amended). For every non-2xx response, the classifier
`validateResponse` attempts to decode the body as JSON; on success it wraps
the outcome as an `Error` whose message embeds the status and which carries
the decoded body (`responseJson`); when decoding fails, the rejection is
the decoding error itself — carrying no status and no body — and it does
not propagate uncaught: the v1.2.8 pipeline routes it into `handleErrorV1`
(which shows the generic notification and still invokes the caller's
failure callback). -/
theorem c7_classifier_amended (r : RawResponse) (s : Settings) (j : RespJson)
    (hok : r.ok = false) :
    (r.jsonBody = some j →
       validateResponse r =
         Except.error (FetchErrV1.httpError ("Network error: " ++ toString r.status) j)) ∧
    (r.jsonBody = none →
       validateResponse r =
         Except.error (FetchErrV1.parseError "SyntaxError: Unexpected end of JSON input") ∧
       runPipelineV1 s (TransportResult.response r) =
         handleErrorV1 (ErrV1.fetchErr
           (FetchErrV1.parseError "SyntaxError: Unexpected end of JSON input")) s) := by
  constructor
  · intro hj
    simp [validateResponse, hok, hj]
  · intro hj
    have hv : validateResponse r =
        Except.error (FetchErrV1.parseError "SyntaxError: Unexpected end of JSON input") := by
      simp [validateResponse, hok, hj]
    exact ⟨hv, by simp [runPipelineV1, hv]⟩

/-- Witness for C7 (amended) at the concrete undecodable 500 response and a
decodable 404 variant. -/
theorem c7_classifier_amended_witness :
    validateResponse c7Response =
      Except.error (FetchErrV1.parseError "SyntaxError: Unexpected end of JSON input") ∧
    validateResponse { c7Response with status := 404, jsonBody := some { message := some "Not found" } } =
      Except.error (FetchErrV1.httpError "Network error: 404" { message := some "Not found" }) := by
  constructor
  · exact ((c7_classifier_amended c7Response {} {} rfl).2 rfl).1
  · exact ((c7_classifier_amended
      { c7Response with status := 404, jsonBody := some { message := some "Not found" } }
      {} { message := some "Not found" } rfl).1 rfl).trans (by rfl)

theorem mem_ite_singleton {c : Prop} [Decidable c] {x a : UIAction}
    (h : a ∈ (if c then [x] else ([] : List UIAction))) : a = x := by
  split at h
  · simpa using h
  · cases h

theorem pipeAct_renderFields (s : Settings) (errs : List (String × List String)) :
    ∀ a ∈ errs.filterMap (renderFieldError s), pipeAct a = true := by
  intro a ha
  obtain ⟨fe, _, hfe⟩ := List.mem_filterMap.mp ha
  unfold renderFieldError at hfe
  split at hfe
  · cases hfe
    rfl
  · cases hfe

theorem pipeAct_handleError (e : FetchError) (s : Settings) :
    ∀ a ∈ handleError e s, pipeAct a = true := by
  intro a ha
  cases e with
  | plainError e =>
      simp [handleError] at ha
      subst ha
      rfl
  | httpResponse status body =>
      simp only [handleError] at ha
      by_cases hs : status = 422
      · rw [if_pos hs] at ha
        cases body with
        | none =>
            simp at ha
            subst ha
            rfl
        | some j =>
            rcases List.mem_cons.mp ha with rfl | hrest
            · rfl
            · cases herr : j.errors with
              | none =>
                  rw [herr] at hrest
                  cases hrest
              | some errs =>
                  rw [herr] at hrest
                  exact pipeAct_renderFields s errs a hrest
      · rw [if_neg hs] at ha
        simp at ha
        subst ha
        rfl

theorem pipeAct_handleSuccess (d : RespData) (s : Settings) :
    ∀ a ∈ (handleSuccess d s).1, pipeAct a = true := by
  intro a ha
  simp only [handleSuccess] at ha
  split at ha
  · rcases List.mem_append.mp ha with h | h
    · rw [List.mem_singleton.mp h]
      rfl
    · rw [mem_ite_singleton h]
      rfl
  · rcases List.mem_append.mp ha with h | h
    · rcases List.mem_append.mp h with h2 | h2
      · rcases List.mem_append.mp h2 with h3 | h3
        · rw [List.mem_singleton.mp h3]
          rfl
        · rw [mem_ite_singleton h3]
          rfl
      · rw [mem_ite_singleton h2]
        rfl
    · rw [mem_ite_singleton h]
      rfl

theorem pipeAct_processResponse (d : RespData) (s : Settings) :
    ∀ a ∈ (processResponse d s).1, pipeAct a = true := by
  intro a ha
  simp only [processResponse] at ha
  split at ha
  · rename_i ui e heq
    split at heq
    · have hui : ui = (handleSuccess d s).1 := by
        rw [heq]
      exact pipeAct_handleSuccess d s a (hui ▸ ha)
    · cases heq
  · rename_i ui heq
    rcases List.mem_append.mp ha with h | h
    · split at heq
      · have hui : ui = (handleSuccess d s).1 := by
          rw [heq]
        exact pipeAct_handleSuccess d s a (hui ▸ h)
      · cases heq
        cases h
    · split at h
      · rw [List.mem_singleton.mp h]
        rfl
      · split at h
        · rw [List.mem_singleton.mp h]
          rfl
        · cases h

theorem pipeAct_runPipelineV2 (s : Settings) (t : TransportResult) :
    ∀ a ∈ runPipelineV2 s t, pipeAct a = true := by
  intro a ha
  cases t with
  | networkError msg =>
      simp only [runPipelineV2] at ha
      exact pipeAct_handleError _ s a ha
  | response r =>
      simp only [runPipelineV2] at ha
      split at ha
      · split at ha
        · exact pipeAct_handleError _ s a ha
        · split at ha
          · exact pipeAct_handleError _ s a ha
          · rcases List.mem_append.mp ha with h | h
            · exact pipeAct_processResponse _ s a h
            · split at h
              · exact pipeAct_handleError _ s a h
              · cases h
      · exact pipeAct_handleError _ s a ha

theorem pipeAct_imp_preAct (a : UIAction) (h : pipeAct a = true) : preAct a = true := by
  cases a <;> simp_all [pipeAct, preAct]

theorem preAct_beforeSendActs (s : Settings) :
    ∀ a ∈ beforeSendActs s, preAct a = true := by
  intro a ha
  unfold beforeSendActs defaultBeforeSend toggleButtonLoading at ha
  split at ha
  · rw [List.mem_singleton.mp ha]
    rfl
  · split at ha
    · split at ha
      · rw [List.mem_singleton.mp ha]
        rfl
      · rw [List.mem_singleton.mp ha]
        rfl
    · cases ha

theorem preAct_easyAjaxPre (s : Settings) (t : TransportResult) :
    ∀ a ∈ (UIAction.clearValidation ::
        (beforeSendActs s ++ [UIAction.timerSet, UIAction.fetchIssued] ++
         runPipelineV2 s t)), preAct a = true := by
  intro a ha
  rcases List.mem_cons.mp ha with rfl | h
  · rfl
  · rcases List.mem_append.mp h with h2 | h2
    · rcases List.mem_append.mp h2 with h3 | h3
      · exact preAct_beforeSendActs s a h3
      · rcases List.mem_cons.mp h3 with rfl | h4
        · rfl
        · rw [List.mem_singleton.mp h4]
          rfl
    · exact pipeAct_imp_preAct a (pipeAct_runPipelineV2 s t a h2)

theorem swalFire_not_mem_finally (s : Settings) :
    UIAction.swalFire ∉ finallyActions s := by
  unfold finallyActions toggleButtonLoading
  split_ifs <;> simp

/-- C8 (confirmed). Whenever a request settles (i.e. `fetch` was issued and
the invocation ends without a synchronous throw), the invocation trace ends
with the `.finally` block, which runs exactly once and in order: first the
timeout timer is cleared, then — when `disableButton` was set — the target
button's loading state is restored via `toggleButtonLoading(_, false)`, then
the `complete()` callback is invoked if provided.  None of these three
actions occurs anywhere earlier in the trace, so the clear/restore each
happen exactly once; and since the button restoration strictly precedes the
`complete()` invocation, a throwing `complete` callback cannot prevent
it. -/
theorem c8_completion_order (s : Settings) (metaCsrf : Option String)
    (t : TransportResult) (tr : List UIAction)
    (h : easyAjax s metaCsrf t = (tr, none)) :
    ∃ pre, tr = pre ++ finallyActions s ∧
      UIAction.clearTimer ∉ pre ∧
      UIAction.buttonLoading false ∉ pre ∧
      UIAction.invokeComplete ∉ pre ∧
      finallyActions s =
        UIAction.clearTimer ::
          ((if s.disableButton then toggleButtonLoading s.buttonSelector false else []) ++
           (if s.hasComplete then [UIAction.invokeComplete] else [])) := by
  unfold easyAjax at h
  cases hb : buildRequest s metaCsrf with
  | error e =>
      rw [hb] at h
      simp at h
  | ok ro =>
      rw [hb] at h
      have htr : tr = UIAction.clearValidation ::
          (beforeSendActs s ++ [UIAction.timerSet, UIAction.fetchIssued] ++
           runPipelineV2 s t ++ finallyActions s) := by
        have := congrArg Prod.fst h
        simpa using this.symm
      refine ⟨UIAction.clearValidation ::
        (beforeSendActs s ++ [UIAction.timerSet, UIAction.fetchIssued] ++
         runPipelineV2 s t), ?_, ?_, ?_, ?_, rfl⟩
      · rw [htr]
        simp [List.append_assoc]
      · intro hmem
        have := preAct_easyAjaxPre s t _ hmem
        simp [preAct, pipeAct] at this
      · intro hmem
        have := preAct_easyAjaxPre s t _ hmem
        simp [preAct, pipeAct] at this
      · intro hmem
        have := preAct_easyAjaxPre s t _ hmem
        simp [preAct, pipeAct] at this

/-- Witness for C8 at the default settings and a network failure: the
settled trace decomposes into a prefix free of completion actions followed
by the `.finally` actions. -/
theorem c8_completion_order_witness :
    UIAction.clearTimer ∈
      (easyAjax ({} : Settings) (some "tok") (TransportResult.networkError "x")).1 ∧
    UIAction.buttonLoading false ∈
      (easyAjax ({} : Settings) (some "tok") (TransportResult.networkError "x")).1 := by
  obtain ⟨pre, htr, h1, h2, h3, hf⟩ :=
    c8_completion_order {} (some "tok") (TransportResult.networkError "x")
      ((easyAjax ({} : Settings) (some "tok") (TransportResult.networkError "x")).1) rfl
  rw [htr]
  constructor
  · exact List.mem_append.mpr (Or.inr (by decide))
  · exact List.mem_append.mpr (Or.inr (by decide))

/-- C9 (counterexample). The claim asserts that `file` set with no form in
the container makes request building raise immediately.  It is false for
body-less methods: at the default method (GET) with `file: true` and no
form, `createFormData` is never called, nothing is thrown, and the request
is issued. -/
theorem c9_counterexample :
    (easyAjax c9Settings (some "tok") (TransportResult.networkError "x")).2 = none ∧
    UIAction.fetchIssued ∈
      (easyAjax c9Settings (some "tok") (TransportResult.networkError "x")).1 := by
  decide

/-- C9 (amended). When `file` is set on a body-carrying method (neither GET
nor HEAD after upper-casing) and the container holds no form element,
`easyAjax` raises the `Form not found` error while building the request and
no request is issued; and when `formReset` is enabled and the container
holds no form element, `handleSuccess` throws the `null.reset` TypeError
rather than falling back gracefully. -/
theorem c9_missing_form_amended (s : Settings) (tok : String) (t : TransportResult)
    (d : RespData) :
    (upcase s.type ≠ "GET" → upcase s.type ≠ "HEAD" → s.file = true →
       s.containerHasForm = false →
       (easyAjax s (some tok) t).2 =
         some (JsError.jsErrorMsg "Form not found in the specified container.") ∧
       UIAction.fetchIssued ∉ (easyAjax s (some tok) t).1) ∧
    (s.formReset = true → s.containerHasForm = false →
       (handleSuccess d s).2 =
         some (JsError.typeError "Cannot read properties of null (reading reset)")) := by
  constructor
  · intro h1 h2 hf hform
    have hb : buildRequest s (some tok) =
        Except.error (JsError.jsErrorMsg "Form not found in the specified container.") := by
      simp [buildRequest, createFormData, h1, h2, hf, hform]
    refine ⟨?_, ?_⟩
    · simp [easyAjax, hb]
    · simp [easyAjax, hb]
  · intro hfr hform
    simp [handleSuccess, hfr, hform]

/-- Witness for C9 (amended) at concrete inputs: a POST upload with no form
raises before `fetch`; a success outcome with `formReset` and no form
throws in `handleSuccess`. -/
theorem c9_missing_form_amended_witness :
    (easyAjax { type := "POST", file := true } (some "tok")
        (TransportResult.networkError "x")).2 =
      some (JsError.jsErrorMsg "Form not found in the specified container.") ∧
    (handleSuccess (RespData.text "ok") { formReset := true }).2 =
      some (JsError.typeError "Cannot read properties of null (reading reset)") := by
  obtain ⟨ha, hb⟩ := c9_missing_form_amended { type := "POST", file := true } "tok"
    (TransportResult.networkError "x") (RespData.text "ok")
  refine ⟨(ha (by decide) (by decide) rfl rfl).1, ?_⟩
  exact c9_missing_form_amended { formReset := true } "tok"
    (TransportResult.networkError "x") (RespData.text "ok") |>.2 rfl rfl

/-- C10 (confirmed). For every configuration, meta-tag state and transport
outcome, the `easyAjax` invocation trace never contains a `Swal.fire` call;
and the whole invocation is observably independent of the `showSwalMsg` and
`swalOptions` settings.  The only function that consults them,
`handleFailure`, would fire the dialog when called with `showSwalMsg` set
and `window.Swal` present — but it is unreachable from the request
pipeline. -/
theorem c10_swal_unreachable (s : Settings) (metaCsrf : Option String)
    (t : TransportResult) (b : Bool) (so : List (String × String)) :
    UIAction.swalFire ∉ (easyAjax s metaCsrf t).1 ∧
    easyAjax { s with showSwalMsg := b, swalOptions := so } metaCsrf t =
      easyAjax s metaCsrf t ∧
    (s.showSwalMsg = true →
       UIAction.swalFire ∈ handleFailure (some "msg") s true) := by
  refine ⟨?_, rfl, ?_⟩
  · unfold easyAjax
    cases hb : buildRequest s metaCsrf with
    | error e => simp
    | ok ro =>
        intro hmem
        simp only [List.mem_cons, List.mem_append] at hmem
        rcases hmem with h | h
        · cases h
        · rcases h with ⟨⟨h | h⟩ | h⟩ | h
          · have := preAct_beforeSendActs s _ h
            simp [preAct, pipeAct] at this
          · simp at h
          · have := pipeAct_runPipelineV2 s t _ h
            simp [pipeAct] at this
          · exact swalFire_not_mem_finally s h
  · intro hswal
    simp [handleFailure, hswal]

/-- Witness for C10 at the default settings: no `Swal.fire` in a settled
trace, flipping `showSwalMsg`/`swalOptions` leaves the run unchanged, and
`handleFailure` would fire the dialog if it were reached. -/
theorem c10_swal_unreachable_witness :
    UIAction.swalFire ∉
      (easyAjax ({} : Settings) (some "tok") (TransportResult.networkError "x")).1 ∧
    easyAjax { ({} : Settings) with showSwalMsg := false, swalOptions := [("icon", "error")] } (some "tok") (TransportResult.networkError "x") =
      easyAjax ({} : Settings) (some "tok") (TransportResult.networkError "x") ∧
    UIAction.swalFire ∈ handleFailure (some "msg") ({} : Settings) true := by
  obtain ⟨h1, h2, h3⟩ := c10_swal_unreachable ({} : Settings) (some "tok")
    (TransportResult.networkError "x") false [("icon", "error")]
  exact ⟨h1, h2, h3 rfl⟩
